import Mathlib

/-!
Verification of the zed lake storage core (Root, lake magic file, pool
lifecycle) against its natural-language specification.

The Go sources embedded here are `lake/root.go` (constants, `LakeMagic`,
`Open`, `Create`, `createConfig`, `loadConfig`, `writeLakeMagic`,
`readLakeMagic`, `Root.openPool`, `Root.OpenPool`, `Root.CreatePool`) and
`lake/pools/config.go` (`Config`, `NewConfig`).  Collaborator packages that
are not part of the sources (the `pools.Store` journal-backed config store,
the storage engine, package-level `CreatePool`/`OpenPool`/`RemovePool`)
are modelled from the specification, and each such definition says so in
its doc comment.

The storage engine is modelled as an oracle: a record of the responses the
engine gives to each call the embedded code performs.  Stateful code is
embedded as explicit state passing, and every engine call is logged in an
event trace so that ordering claims can be stated.
-/

namespace ZedLake

/-- `lake.Version`: the supported lake format version (root.go). -/
def Version : Int := 3

/-- `lake.LakeMagicString` (root.go). -/
def LakeMagicString : String := "ZED LAKE"

/-- `lake.LakeMagic`: the record held by the lake magic file (root.go). -/
structure LakeMagic where
  Magic : String
  Version : Int
  deriving DecidableEq, Repr

/-- The spec's error taxonomy (spec section 7): typed categories. -/
inductive ErrCategory where
  | notFound
  | existsErr
  | conflict
  | empty
  | invalid
  | corrupt
  | cancelled
  | io
  deriving DecidableEq, Repr

/-- The concrete error values produced by the embedded code, one
constructor per distinct Go error construction site. -/
inductive LakeError where
  /-- `fs.ErrNotExist` surfaced by `engine.Get` on a missing object. -/
  | fsNotExist
  /-- `fmt.Errorf("%s: %w", path, ErrNotExist)` in `Open`. -/
  | lakeNotExist
  /-- `fmt.Errorf("%s: %w", path, ErrExist)` in `Create`. -/
  | lakeExists
  /-- `errors.New("lake already exists")` in `writeLakeMagic`. -/
  | magicAlreadyExists
  /-- "corrupt lake version file: more than one Zed value ..." -/
  | corruptMultiRecord
  /-- "corrupt lake version file: <unmarshal error>" -/
  | corruptUnmarshal
  /-- "corrupt lake version file: magic %q should be %q" -/
  | corruptBadMagic (found : String)
  /-- "unsupported lake version: found version %d while expecting %d" -/
  | unsupportedVersion (found : Int)
  /-- `fmt.Errorf("pool cannot be named %q", name)` in `Root.CreatePool`. -/
  | poolNamedHEAD (name : String)
  /-- `fmt.Errorf("%s: %w", name, pools.ErrExists)` in `Root.CreatePool`. -/
  | poolExists (name : String)
  /-- `errors.New("multiple pool keys not supported")` in `Root.CreatePool`. -/
  | multiplePoolKeys
  /-- `pools.ErrNotFound` from a store lookup. -/
  | poolNotFound
  /-- `storage.ErrNotSupported` from `engine.PutIfNotExists`. -/
  | notSupported
  /-- The storage engine's `AlreadyExists` condition from `PutIfNotExists`. -/
  | alreadyExists
  /-- Any other error surfaced by the object-store adapter. -/
  | ioErr (msg : String)
  deriving DecidableEq, Repr

/-- The spec's classification (section 7) of each concrete error. -/
def LakeError.category : LakeError → ErrCategory
  | .fsNotExist => .notFound
  | .lakeNotExist => .notFound
  | .lakeExists => .existsErr
  | .magicAlreadyExists => .existsErr
  | .corruptMultiRecord => .corrupt
  | .corruptUnmarshal => .corrupt
  | .corruptBadMagic _ => .corrupt
  | .unsupportedVersion _ => .invalid
  | .poolNamedHEAD _ => .invalid
  | .poolExists _ => .existsErr
  | .multiplePoolKeys => .invalid
  | .poolNotFound => .notFound
  | .notSupported => .io
  | .alreadyExists => .existsErr
  | .ioErr _ => .io

/-- The Go error message of each concrete error, mirroring the `fmt`
format strings in root.go. -/
def LakeError.message : LakeError → String
  | .fsNotExist => "file does not exist"
  | .lakeNotExist => "lake does not exist"
  | .lakeExists => "lake already exists"
  | .magicAlreadyExists => "lake already exists"
  | .corruptMultiRecord => "corrupt lake version file: more than one Zed value"
  | .corruptUnmarshal => "corrupt lake version file: unmarshal error"
  | .corruptBadMagic found =>
      "corrupt lake version file: magic " ++ found ++ " should be " ++ LakeMagicString
  | .unsupportedVersion found =>
      "unsupported lake version: found version " ++ toString found ++
        " while expecting " ++ toString Version
  | .poolNamedHEAD name => "pool cannot be named " ++ name
  | .poolExists name => name ++ ": pool already exists"
  | .multiplePoolKeys => "multiple pool keys not supported"
  | .poolNotFound => "pool not found"
  | .notSupported => "method not supported"
  | .alreadyExists => "object already exists"
  | .ioErr msg => msg

/-- The engine and store calls the Root-level code performs, logged in
order so that sequencing claims can be stated. -/
inductive Event where
  /-- `engine.Get` on the lake magic file path. -/
  | getMagic
  /-- `engine.PutIfNotExists` on the lake magic file path. -/
  | putIfNotExistsMagic
  /-- Fallback `storage.Put` on the lake magic file path. -/
  | putMagic
  /-- `pools.CreateStore` on the pools config path. -/
  | createPoolsStore
  /-- `index.CreateStore` on the index-rules path. -/
  | createRulesStore
  /-- `pools.OpenStore` on the pools config path. -/
  | openPoolsStore
  /-- `index.OpenStore` on the index-rules path. -/
  | openRulesStore
  deriving DecidableEq, Repr

/-- The storage-engine oracle for the Root bootstrap code: the response
the engine gives to each call `loadConfig`/`createConfig` can make.
`magicFile = none` models `engine.Get` failing with `fs.ErrNotExist`;
`magicFile = some vals` models a magic file whose ZNG stream decodes to
the record sequence `vals`.  `putIfNotExistsErr`/`putErr` are the outcomes
of `PutIfNotExists` and of the fallback `storage.Put` on the magic path
(`none` = success). -/
structure Engine where
  magicFile : Option (List LakeMagic)
  putIfNotExistsErr : Option LakeError
  putErr : Option LakeError
  createPoolsErr : Option LakeError
  createRulesErr : Option LakeError
  openPoolsErr : Option LakeError
  openRulesErr : Option LakeError
  deriving DecidableEq, Repr

/-- `Root.readLakeMagic` (root.go): read the magic file, reject a stream
with more than one record, then an unmarshal failure, then a magic-string
mismatch, then a version mismatch — in that order.  The zngio reader is
embedded as the decoded record list: its first `Read` yields the head,
the second `Read` yields the second element or nil. -/
def readLakeMagic (magicFile : Option (List LakeMagic)) : Except LakeError Unit :=
  match magicFile with
  | none => .error .fsNotExist
  | some vals =>
    match vals with
    | [] => .error .corruptUnmarshal
    | [m] =>
      if m.Magic ≠ LakeMagicString then .error (.corruptBadMagic m.Magic)
      else if m.Version ≠ Version then .error (.unsupportedVersion m.Version)
      else .ok ()
    | _ :: _ :: _ => .error .corruptMultiRecord

/-- `Root.writeLakeMagic` (root.go): re-read the magic (failing if a valid
magic already exists), then `PutIfNotExists` the serialized record; only
on `storage.ErrNotSupported` fall back to a plain `storage.Put`.  Returns
the event trace alongside the result. -/
def writeLakeMagic (eng : Engine) : List Event × Except LakeError Unit :=
  match readLakeMagic eng.magicFile with
  | .ok _ => ([.getMagic], .error .magicAlreadyExists)
  | .error _ =>
    match eng.putIfNotExistsErr with
    | none => ([.getMagic, .putIfNotExistsMagic], .ok ())
    | some e =>
      if e = .notSupported then
        match eng.putErr with
        | none => ([.getMagic, .putIfNotExistsMagic, .putMagic], .ok ())
        | some e' => ([.getMagic, .putIfNotExistsMagic, .putMagic], .error e')
      else ([.getMagic, .putIfNotExistsMagic], .error e)

/-- Modelled from the spec: `pools.CreateStore` (lake/pools, not among the
sources) creates the journal-backed pools config store; the oracle field
`createPoolsErr` gives its outcome. -/
def poolsCreateStore (eng : Engine) : List Event × Except LakeError Unit :=
  ([.createPoolsStore], match eng.createPoolsErr with
    | none => .ok ()
    | some e => .error e)

/-- Modelled from the spec: `index.CreateStore` (lake/index, not among the
sources) creates the journal-backed index-rules store. -/
def indexCreateStore (eng : Engine) : List Event × Except LakeError Unit :=
  ([.createRulesStore], match eng.createRulesErr with
    | none => .ok ()
    | some e => .error e)

/-- Modelled from the spec: `pools.OpenStore` (lake/pools, not among the
sources) opens the pools config store. -/
def poolsOpenStore (eng : Engine) : List Event × Except LakeError Unit :=
  ([.openPoolsStore], match eng.openPoolsErr with
    | none => .ok ()
    | some e => .error e)

/-- Modelled from the spec: `index.OpenStore` (lake/index, not among the
sources) opens the index-rules store. -/
def indexOpenStore (eng : Engine) : List Event × Except LakeError Unit :=
  ([.openRulesStore], match eng.openRulesErr with
    | none => .ok ()
    | some e => .error e)

/-- `Root.createConfig` (root.go): create the pools store, then the
index-rules store, then write the lake magic. -/
def createConfig (eng : Engine) : List Event × Except LakeError Unit :=
  match poolsCreateStore eng with
  | (t₁, .error e) => (t₁, .error e)
  | (t₁, .ok _) =>
    match indexCreateStore eng with
    | (t₂, .error e) => (t₁ ++ t₂, .error e)
    | (t₂, .ok _) =>
      match writeLakeMagic eng with
      | (t₃, res) => (t₁ ++ t₂ ++ t₃, res)

/-- `Root.loadConfig` (root.go): read and validate the magic, then open
the pools store and the index-rules store. -/
def loadConfig (eng : Engine) : List Event × Except LakeError Unit :=
  match readLakeMagic eng.magicFile with
  | .error e => ([.getMagic], .error e)
  | .ok _ =>
    match poolsOpenStore eng with
    | (t₂, .error e) => (.getMagic :: t₂, .error e)
    | (t₂, .ok _) =>
      match indexOpenStore eng with
      | (t₃, res) => (.getMagic :: (t₂ ++ t₃), res)

/-- `lake.Open` (root.go): `loadConfig`, wrapping `fs.ErrNotExist` as the
"lake does not exist" error; any other failure is surfaced unchanged and
no Root is returned. -/
def Open (eng : Engine) : List Event × Except LakeError Unit :=
  match loadConfig eng with
  | (t, .error e) =>
    (t, .error (if e = .fsNotExist then .lakeNotExist else e))
  | (t, .ok _) => (t, .ok ())

/-- `lake.Create` (root.go): fail with "lake already exists" when
`loadConfig` succeeds, otherwise run `createConfig`. -/
def Create (eng : Engine) : List Event × Except LakeError Unit :=
  match loadConfig eng with
  | (t, .ok _) => (t, .error .lakeExists)
  | (t, .error _) =>
    match createConfig eng with
    | (t', res) => (t ++ t', res)

/-! ## The pool side: `order.SortKey`, `pools.Config`, the pools store,
and the `Root` pool operations. -/

/-- `order.Which`: a sort direction (package order, modelled from the
spec: a sort key pairs a dotted field path with a direction). -/
inductive Which where
  | asc
  | desc
  deriving DecidableEq, Repr

/-- `order.SortKey` (package order, modelled from the spec): a direction
together with a list of dotted field paths; `field.DottedList "ts"` is
`[["ts"]]`. -/
structure SortKey where
  order : Which
  keys : List (List String)
  deriving DecidableEq, Repr

/-- `order.SortKey.IsNil` (package order, modelled from the spec): a nil
sort key has no keys. -/
def SortKey.IsNil (s : SortKey) : Bool :=
  s.keys.isEmpty

/-- `order.NewSortKey` (package order, modelled from the spec). -/
def NewSortKey (o : Which) (keys : List (List String)) : SortKey :=
  ⟨o, keys⟩

/-- `data.DefaultThreshold` (lake/data, modelled from the spec: the
default target byte size of a data object; 500 MiB in the source tree). -/
def DefaultThreshold : Int := 500 * 1024 * 1024

/-- `data.DefaultSeekStride` (lake/data, modelled from the spec: the
default seek-index density; 64 KiB in the source tree). -/
def DefaultSeekStride : Int := 64 * 1024

/-- KSUIDs are modelled as natural numbers; `ksuid.New()` is embedded by
passing the freshly drawn id as an explicit argument. -/
abbrev KSUID := Nat

/-- `pools.Config` (lake/pools/config.go). -/
structure Config where
  Ts : Nat
  Name : String
  ID : KSUID
  SortKey : SortKey
  SeekStride : Int
  Threshold : Int
  deriving DecidableEq, Repr

/-- `pools.NewConfig` (lake/pools/config.go): substitute defaults for
zero-valued inputs.  `nano.Now()` and `ksuid.New()` are embedded as the
explicit arguments `ts` and `id`. -/
def NewConfig (name : String) (sortKey : SortKey) (thresh : Int)
    (seekStride : Int) (ts : Nat) (id : KSUID) : Config :=
  let sortKey := if sortKey.IsNil then NewSortKey .desc [["ts"]] else sortKey
  let thresh := if thresh = 0 then DefaultThreshold else thresh
  let seekStride := if seekStride = 0 then DefaultSeekStride else seekStride
  { Ts := ts, Name := name, ID := id, SortKey := sortKey,
    SeekStride := seekStride, Threshold := thresh }

/-- `lake.Pool` (pool.go, not among the sources): modelled from the spec
as its `pools.Config` plus an opaque payload standing for the remaining
fields (engine handle, commit journal, branch store, snapshot cache). -/
structure Pool where
  Config : Config
  payload : Nat
  deriving DecidableEq, Repr

/-- Modelled from the spec: the live-entry state of the journal-backed
`pools.Store` (lake/pools, not among the sources), obtained by replaying
its journal — a sequence of pool configs keyed by name. -/
abbrev PoolsStore := List Config

/-- Modelled from the spec: `pools.Store.LookupByName` resolves a pool
name to its live config, if any. -/
def storeLookupByName (s : PoolsStore) (name : String) : Option Config :=
  s.find? (fun c => c.Name = name)

/-- Modelled from the spec: `pools.Store.LookupByID` resolves a pool id
to its live config, failing with `NotFound` otherwise. -/
def storeLookupByID (s : PoolsStore) (id : KSUID) : Except LakeError Config :=
  match s.find? (fun c => c.ID = id) with
  | some c => .ok c
  | none => .error .poolNotFound

/-- The oracle for the pool-side collaborators that are not among the
sources: the outcome of the package-level `CreatePool` (on-disk
structure creation), of the package-level `OpenPool`, of the journal
append performed by `pools.Store.Add`, and the opaque payload of a
freshly opened pool. -/
structure PoolEnv where
  createErr : Option LakeError
  openErr : Option LakeError
  addErr : Option LakeError
  openedPayload : Nat
  deriving DecidableEq, Repr

/-- Modelled from the spec: `pools.Store.Add` appends an `Add` entry to
the store's journal, failing with `Exists` when the entry's key (the
pool name) already resolves to a live entry; `env.addErr` is the outcome
of the underlying journal append. -/
def storeAdd (env : PoolEnv) (s : PoolsStore) (c : Config) :
    Except LakeError PoolsStore :=
  if (storeLookupByName s c.Name).isSome then .error (.poolExists c.Name)
  else
    match env.addErr with
    | some e => .error e
    | none => .ok (s ++ [c])

/-- The `Root` state the pool operations touch: the pools config store,
the LRU pool cache (as an association list from pool id to cached
instance), and the set of pool ids whose on-disk byte tree exists. -/
structure Root where
  pools : PoolsStore
  poolCache : List (KSUID × Pool)
  poolDirs : List KSUID
  deriving DecidableEq, Repr

/-- `lru.ARCCache.Get` on the Root's pool cache. -/
def cacheGet (cache : List (KSUID × Pool)) (id : KSUID) : Option Pool :=
  match cache.find? (fun e => e.1 = id) with
  | some e => some e.2
  | none => none

/-- Modelled from the spec: the package-level `lake.CreatePool` (pool.go,
not among the sources) creates the pool's on-disk structure (branch
journal, commit journal) under the pool id's path. -/
def createPoolStorage (env : PoolEnv) (r : Root) (c : Config) :
    Except LakeError Root :=
  match env.createErr with
  | some e => .error e
  | none => .ok { r with poolDirs := r.poolDirs ++ [c.ID] }

/-- Modelled from the spec: the package-level `lake.OpenPool` (pool.go,
not among the sources) opens a pool instance from its config. -/
def openPoolStorage (env : PoolEnv) (c : Config) : Except LakeError Pool :=
  match env.openErr with
  | some e => .error e
  | none => .ok { Config := c, payload := env.openedPayload }

/-- Modelled from the spec: the package-level `lake.RemovePool` (pool.go,
not among the sources) removes the pool's on-disk byte tree. -/
def removePoolStorage (r : Root) (c : Config) : Root :=
  { r with poolDirs := r.poolDirs.filter (fun id => id ≠ c.ID) }

/-- `Root.openPool` (root.go): on a cache hit return a copy of the cached
pool whose `Config` is replaced by the given config (the cached config
may be outdated); on a miss open the pool and add it to the cache. -/
def Root.openPool (r : Root) (env : PoolEnv) (config : Config) :
    Except LakeError (Root × Pool) :=
  match cacheGet r.poolCache config.ID with
  | some p => .ok (r, { p with Config := config })
  | none =>
    match openPoolStorage env config with
    | .error e => .error e
    | .ok p => .ok ({ r with poolCache := (config.ID, p) :: r.poolCache }, p)

/-- `Root.OpenPool` (root.go): look the id up in the pools store, then
`openPool` with the config currently recorded there. -/
def Root.OpenPool (r : Root) (env : PoolEnv) (id : KSUID) :
    Except LakeError (Root × Pool) :=
  match storeLookupByID r.pools id with
  | .error e => .error e
  | .ok config => r.openPool env config

/-- `Root.CreatePool` (root.go): reject the reserved name `HEAD`, then a
name already in the pools store, then a multi-key sort key; build the
config with `NewConfig`, create the pool's on-disk structure, open the
pool, and add the config to the pools store — undoing the on-disk
structure when the open or the add fails.  Returns the resulting Root
state alongside the outcome so that state changes on the error paths are
visible. -/
def Root.CreatePool (r : Root) (env : PoolEnv) (name : String)
    (sortKey : SortKey) (seekStride : Int) (thresh : Int) (ts : Nat)
    (id : KSUID) : Root × Except LakeError Pool :=
  if name = "HEAD" then (r, .error (.poolNamedHEAD name))
  else if (storeLookupByName r.pools name).isSome then
    (r, .error (.poolExists name))
  else
    let thresh := if thresh = 0 then DefaultThreshold else thresh
    if sortKey.keys.length > 1 then (r, .error .multiplePoolKeys)
    else
      let config := NewConfig name sortKey thresh seekStride ts id
      match createPoolStorage env r config with
      | .error e => (r, .error e)
      | .ok r₁ =>
        match r₁.openPool env config with
        | .error e => (removePoolStorage r₁ config, .error e)
        | .ok (r₂, pool) =>
          match storeAdd env r₂.pools config with
          | .error e => (removePoolStorage r₂ config, .error e)
          | .ok ps => ({ r₂ with pools := ps }, .ok pool)

/-! ## Concrete states used to instantiate the theorems. -/

/-- An engine oracle on which every call succeeds and the magic file is
absent: a fresh lake path. -/
def engFresh : Engine :=
  { magicFile := none, putIfNotExistsErr := none, putErr := none,
    createPoolsErr := none, createRulesErr := none,
    openPoolsErr := none, openRulesErr := none }

/-- An engine whose magic file holds one record with a wrong magic string
and a wrong version. -/
def engBadMagicBadVersion : Engine :=
  { engFresh with magicFile := some [⟨"WRONG", 4⟩] }

/-- An engine whose magic file holds the expected record followed by a
second record. -/
def engTwoRecords : Engine :=
  { engFresh with magicFile := some [⟨"ZED LAKE", 3⟩, ⟨"ZED LAKE", 3⟩] }

/-- An engine whose magic file holds one well-formed record with version
`4` instead of the supported `3`. -/
def engVersionFour : Engine :=
  { engFresh with magicFile := some [⟨"ZED LAKE", 4⟩] }

/-! ## C1 -/

/-- C1, counterexample: the claim quantifies over every lake whose magic
file holds a record whose version differs from the supported one, but
`readLakeMagic` checks the magic string before the version, so a file
whose single record has both a wrong magic and a wrong version makes
`Open` fail with the Corrupt magic-mismatch error, not with the Invalid
"unsupported lake version" error. -/
theorem C1_counterexample :
    engBadMagicBadVersion.magicFile = some [⟨"WRONG", 4⟩] ∧
    (4 : Int) ≠ Version ∧
    (Open engBadMagicBadVersion).2 = .error (.corruptBadMagic "WRONG") ∧
    LakeError.category (.corruptBadMagic "WRONG") ≠ ErrCategory.invalid ∧
    (LakeError.corruptBadMagic "WRONG").message ≠
      (LakeError.unsupportedVersion 4).message :=
  ⟨rfl, by decide, rfl, by decide, by decide⟩

/-- C1 (amended): for every lake whose magic file holds exactly one
record, with the expected magic string and a version different from the
supported version, `Open` fails with the Invalid error whose message
begins with "unsupported lake version"; no Root is returned. -/
theorem C1_open_unsupported_version (eng : Engine) (v : Int)
    (hmagic : eng.magicFile = some [⟨LakeMagicString, v⟩])
    (hv : v ≠ Version) :
    (Open eng).2 = .error (.unsupportedVersion v) ∧
    (LakeError.unsupportedVersion v).category = ErrCategory.invalid ∧
    ∃ rest, (LakeError.unsupportedVersion v).message =
      "unsupported lake version" ++ rest := by
  refine ⟨?_, rfl, ?_⟩
  · simp [Open, loadConfig, readLakeMagic, hmagic, hv]
  · refine ⟨": found version " ++ (toString v ++ (" while expecting " ++
      toString Version)), ?_⟩
    have h0 : ("unsupported lake version: found version " : String) =
        "unsupported lake version" ++ ": found version " := by decide
    simp only [LakeError.message, h0, String.append_assoc]

/-- C1 witness: the amended theorem at the concrete engine whose magic
file holds `{magic: "ZED LAKE", version: 4}`. -/
theorem C1_witness :
    (Open engVersionFour).2 = .error (.unsupportedVersion 4) ∧
    (LakeError.unsupportedVersion 4).category = ErrCategory.invalid ∧
    ∃ rest, (LakeError.unsupportedVersion 4).message =
      "unsupported lake version" ++ rest :=
  C1_open_unsupported_version engVersionFour 4 rfl (by decide)

/-! ## C2 -/

/-- C2: for every lake whose magic file holds more than one top-level
record, or holds a record whose magic string differs from the expected
magic string, `Open` fails with an error of the Corrupt category,
surfaced unchanged (no retry, no rewrapping). -/
theorem C2_open_corrupt (eng : Engine) (vals : List LakeMagic)
    (hmagic : eng.magicFile = some vals)
    (hbad : 1 < vals.length ∨ ∃ m ∈ vals, m.Magic ≠ LakeMagicString) :
    ∃ e, (Open eng).2 = .error e ∧ e.category = ErrCategory.corrupt := by
  match vals, hbad with
  | [], hbad =>
    rcases hbad with h | ⟨m, hm, _⟩
    · simp at h
    · simp at hm
  | [m], hbad =>
    have hne : m.Magic ≠ LakeMagicString := by
      rcases hbad with h | ⟨m', hm', hne⟩
      · simp at h
      · simp at hm'
        subst hm'
        exact hne
    refine ⟨.corruptBadMagic m.Magic, ?_, rfl⟩
    simp [Open, loadConfig, readLakeMagic, hmagic, hne]
  | m₁ :: m₂ :: rest, _ =>
    refine ⟨.corruptMultiRecord, ?_, rfl⟩
    simp [Open, loadConfig, readLakeMagic, hmagic]

/-- C2 witness: the theorem at the concrete engine whose magic file holds
two records. -/
theorem C2_witness :
    ∃ e, (Open engTwoRecords).2 = .error e ∧
      e.category = ErrCategory.corrupt :=
  C2_open_corrupt engTwoRecords [⟨"ZED LAKE", 3⟩, ⟨"ZED LAKE", 3⟩] rfl
    (Or.inl (by decide))

/-! ## C4 -/

/-- C4: for every Root state, engine oracle, and remaining arguments,
`Root.CreatePool` with the pool name "HEAD" fails with the Invalid
"pool cannot be named" error and leaves the Root state — hence the set
of pools — unchanged. -/
theorem C4_create_pool_head (r : Root) (env : PoolEnv) (sk : SortKey)
    (stride thresh : Int) (ts : Nat) (id : KSUID) :
    r.CreatePool env "HEAD" sk stride thresh ts id =
      (r, .error (.poolNamedHEAD "HEAD")) ∧
    (LakeError.poolNamedHEAD "HEAD").category = ErrCategory.invalid := by
  constructor
  · simp [Root.CreatePool]
  · rfl

/-! ## Concrete pool-side states. -/

/-- A pool-side oracle on which every collaborator call succeeds. -/
def envOk : PoolEnv :=
  { createErr := none, openErr := none, addErr := none, openedPayload := 0 }

/-- The default sort key: `ts` descending. -/
def sortKeyTs : SortKey := NewSortKey .desc [["ts"]]

/-- A sort key with two keys. -/
def sortKeyTwo : SortKey := NewSortKey .asc [["a"], ["b"]]

/-- A nil sort key. -/
def sortKeyNil : SortKey := NewSortKey .asc []

/-- An empty Root: no pools, empty cache, no pool directories. -/
def rootEmpty : Root := { pools := [], poolCache := [], poolDirs := [] }

/-- A live pool config named "a" with id 1. -/
def cfgA : Config :=
  { Ts := 0, Name := "a", ID := 1, SortKey := sortKeyTs,
    SeekStride := DefaultSeekStride, Threshold := DefaultThreshold }

/-- A Root holding the single pool "a". -/
def rootWithA : Root :=
  { pools := [cfgA], poolCache := [], poolDirs := [1] }

/-- A live pool config named "HEAD" with id 1 — reachable because
`Root.RenamePool` (root.go) delegates to the pools store's `Rename`
without any reserved-name check. -/
def cfgNamedHEAD : Config :=
  { Ts := 0, Name := "HEAD", ID := 1, SortKey := sortKeyTs,
    SeekStride := DefaultSeekStride, Threshold := DefaultThreshold }

/-- A Root holding a pool named "HEAD". -/
def rootWithHEAD : Root :=
  { pools := [cfgNamedHEAD], poolCache := [], poolDirs := [1] }

/-! ## C5 -/

/-- C5, counterexample: the claim quantifies over every Root in which a
pool with name `n` already exists, but `Root.CreatePool` checks the
reserved name "HEAD" before the uniqueness check, so on a Root that
already holds a pool named "HEAD" (reachable via `Root.RenamePool`,
which performs no name validation) creating a pool named "HEAD" fails
with the Invalid reserved-name error, not with Exists. -/
theorem C5_counterexample :
    (storeLookupByName rootWithHEAD.pools "HEAD").isSome = true ∧
    (rootWithHEAD.CreatePool envOk "HEAD" sortKeyTs 0 0 0 2).2 =
      .error (.poolNamedHEAD "HEAD") ∧
    LakeError.category (.poolNamedHEAD "HEAD") ≠ ErrCategory.existsErr :=
  ⟨by decide, rfl, by decide⟩

/-- C5 (amended): for every Root in which a pool with name `n` already
exists, where `n` is not the reserved name "HEAD", `CreatePool` with
name `n` fails with the Exists error and the Root state — hence the set
of pools — is unchanged. -/
theorem C5_create_pool_duplicate (r : Root) (env : PoolEnv) (n : String)
    (sk : SortKey) (stride thresh : Int) (ts : Nat) (id : KSUID)
    (c : Config)
    (hname : n ≠ "HEAD")
    (hdup : storeLookupByName r.pools n = some c) :
    r.CreatePool env n sk stride thresh ts id = (r, .error (.poolExists n)) ∧
    (LakeError.poolExists n).category = ErrCategory.existsErr := by
  refine ⟨?_, rfl⟩
  simp [Root.CreatePool, hname, hdup]

/-- C5 witness: the amended theorem on the Root already holding pool
"a". -/
theorem C5_witness :
    rootWithA.CreatePool envOk "a" sortKeyTs 0 0 0 2 =
      (rootWithA, .error (.poolExists "a")) ∧
    (LakeError.poolExists "a").category = ErrCategory.existsErr :=
  C5_create_pool_duplicate rootWithA envOk "a" sortKeyTs 0 0 0 2 cfgA
    (by decide) rfl

/-! ## C6 -/

/-- C6, counterexample: the claim quantifies over every Root, but the
uniqueness check precedes the sort-key check in `Root.CreatePool`, so on
a Root already holding a pool named "a", creating "a" with a two-key
sort key fails with the Exists error, not with an Invalid error. -/
theorem C6_counterexample :
    1 < sortKeyTwo.keys.length ∧
    (rootWithA.CreatePool envOk "a" sortKeyTwo 0 0 0 2).2 =
      .error (.poolExists "a") ∧
    LakeError.category (.poolExists "a") ≠ ErrCategory.invalid :=
  ⟨by decide, rfl, by decide⟩

/-- C6 (amended): for every Root and pool name not already present in
the pools store, `CreatePool` with a sort key containing more than one
key fails with an Invalid error, and the Root state is unchanged. -/
theorem C6_create_pool_multi_key (r : Root) (env : PoolEnv) (name : String)
    (sk : SortKey) (stride thresh : Int) (ts : Nat) (id : KSUID)
    (hfresh : storeLookupByName r.pools name = none)
    (hkeys : 1 < sk.keys.length) :
    ∃ e, r.CreatePool env name sk stride thresh ts id = (r, .error e) ∧
      e.category = ErrCategory.invalid := by
  by_cases hname : name = "HEAD"
  · subst hname
    exact ⟨.poolNamedHEAD "HEAD", by simp [Root.CreatePool], rfl⟩
  · refine ⟨.multiplePoolKeys, ?_, rfl⟩
    simp [Root.CreatePool, hname, hfresh, hkeys]

/-- C6 witness: the amended theorem on the empty Root with the two-key
sort key. -/
theorem C6_witness :
    ∃ e, rootEmpty.CreatePool envOk "a" sortKeyTwo 0 0 0 2 =
      (rootEmpty, .error e) ∧ e.category = ErrCategory.invalid :=
  C6_create_pool_multi_key rootEmpty envOk "a" sortKeyTwo 0 0 0 2 rfl
    (by decide)

/-! ## C8 -/

/-- A pool config named "p" with id 5, as currently recorded in the
pools store. -/
def cfgFive : Config :=
  { Ts := 7, Name := "p", ID := 5, SortKey := sortKeyTs,
    SeekStride := 9, Threshold := 11 }

/-- A cached pool instance for id 5 whose config is stale (an older
name and timestamp). -/
def poolFiveStale : Pool :=
  { Config := { cfgFive with Name := "old", Ts := 1 }, payload := 42 }

/-- A Root whose pool cache holds the stale instance for id 5 while the
pools store records `cfgFive`. -/
def rootCached : Root :=
  { pools := [cfgFive], poolCache := [(5, poolFiveStale)], poolDirs := [5] }

/-- C8: for every pool id present in the Root's pool cache whose config
is currently recorded in the pools store, `Root.OpenPool` returns a copy
of the cached pool instance whose `Config` field is replaced by the
store's current config (never the possibly stale cached one), and the
Root state — in particular the cached entry — is unchanged. -/
theorem C8_open_pool_cached (r : Root) (env : PoolEnv) (id : KSUID)
    (p : Pool) (config : Config)
    (hcache : cacheGet r.poolCache id = some p)
    (hstore : storeLookupByID r.pools id = .ok config) :
    r.OpenPool env id = .ok (r, { p with Config := config }) := by
  have hid : config.ID = id := by
    unfold storeLookupByID at hstore
    cases hfind : r.pools.find? (fun c => c.ID = id) with
    | none => rw [hfind] at hstore; cases hstore
    | some c =>
      rw [hfind] at hstore
      cases hstore
      have := List.find?_some hfind
      simpa using this
  simp [Root.OpenPool, hstore, Root.openPool, hid, hcache]

/-- C8 witness: opening id 5 on `rootCached` yields the stale cached
instance with its config replaced by `cfgFive`, leaving the Root — and
so the cache entry — unchanged. -/
theorem C8_witness :
    rootCached.OpenPool envOk 5 =
      .ok (rootCached, { poolFiveStale with Config := cfgFive }) :=
  C8_open_pool_cached rootCached envOk 5 poolFiveStale cfgFive rfl rfl

/-! ## C9 -/

/-- A pool-side oracle on which opening the freshly created pool fails. -/
def envOpenFails : PoolEnv :=
  { envOk with openErr := some (.ioErr "open failed") }

/-- C9: when the pool's on-disk structure has been created and then
either opening the pool or adding its config entry to the pools store
fails, `Root.CreatePool` removes the pool's storage again and returns an
error, with the pools store unchanged, so that a subsequent lookup by
that name finds nothing. -/
theorem C9_create_pool_undo (r : Root) (env : PoolEnv) (name : String)
    (sk : SortKey) (stride thresh : Int) (ts : Nat) (id : KSUID)
    (hname : name ≠ "HEAD")
    (hfresh : storeLookupByName r.pools name = none)
    (hkeys : ¬ 1 < sk.keys.length)
    (hcreate : env.createErr = none)
    (hcache : cacheGet r.poolCache id = none)
    (hfail : env.openErr.isSome ∨ env.addErr.isSome) :
    (∃ e, (r.CreatePool env name sk stride thresh ts id).2 = .error e) ∧
    id ∉ (r.CreatePool env name sk stride thresh ts id).1.poolDirs ∧
    (r.CreatePool env name sk stride thresh ts id).1.pools = r.pools ∧
    storeLookupByName
      (r.CreatePool env name sk stride thresh ts id).1.pools name = none := by
  have hID : ∀ t s, (NewConfig name sk t s ts id).ID = id := fun _ _ => rfl
  have hNm : ∀ t s, (NewConfig name sk t s ts id).Name = name := fun _ _ => rfl
  cases hopen : env.openErr with
  | some e =>
    simp [Root.CreatePool, hname, hfresh, hkeys, hcreate, hopen, hcache,
      Root.openPool, createPoolStorage, openPoolStorage, removePoolStorage,
      hID, hNm, hfresh]
  | none =>
    have hadd : ∃ e, env.addErr = some e := by
      rcases hfail with h | h
      · rw [hopen] at h; cases h
      · exact Option.isSome_iff_exists.mp h
    rcases hadd with ⟨e, hadd⟩
    simp [Root.CreatePool, hname, hfresh, hkeys, hcreate, hopen, hcache,
      hadd, Root.openPool, createPoolStorage, openPoolStorage, storeAdd,
      removePoolStorage, hID, hNm, hfresh]

/-- C9 witness: on the empty Root with an oracle whose pool-open call
fails, `CreatePool` returns an error, the created directory is removed,
and the pools store still has no entry named "a". -/
theorem C9_witness :
    (∃ e, (rootEmpty.CreatePool envOpenFails "a" sortKeyTs 0 0 0 2).2 =
      .error e) ∧
    2 ∉ (rootEmpty.CreatePool envOpenFails "a" sortKeyTs 0 0 0 2).1.poolDirs ∧
    (rootEmpty.CreatePool envOpenFails "a" sortKeyTs 0 0 0 2).1.pools =
      rootEmpty.pools ∧
    storeLookupByName
      (rootEmpty.CreatePool envOpenFails "a" sortKeyTs 0 0 0 2).1.pools "a" =
      none :=
  C9_create_pool_undo rootEmpty envOpenFails "a" sortKeyTs 0 0 0 2
    (by decide) rfl (by decide) rfl rfl (Or.inl rfl)

/-! ## C10 -/

/-- C10: pool config construction substitutes defaults for zero-valued
inputs, so `CreatePool` with a nil sort key (on a fresh, non-reserved
name, with all collaborator calls succeeding) succeeds and yields a pool
sorted by `ts` descending; a zero threshold likewise becomes the default
threshold and a zero seek stride the default seek stride. -/
theorem C10_create_pool_nil_sort_key (r : Root) (env : PoolEnv)
    (name : String) (sk : SortKey) (stride thresh : Int) (ts : Nat)
    (id : KSUID)
    (hnil : sk.IsNil = true)
    (hname : name ≠ "HEAD")
    (hfresh : storeLookupByName r.pools name = none)
    (hcache : cacheGet r.poolCache id = none)
    (hcreate : env.createErr = none)
    (hopen : env.openErr = none)
    (hadd : env.addErr = none) :
    ∃ pool, (r.CreatePool env name sk stride thresh ts id).2 = .ok pool ∧
      pool.Config.SortKey = NewSortKey .desc [["ts"]] ∧
      (thresh = 0 → pool.Config.Threshold = DefaultThreshold) ∧
      (stride = 0 → pool.Config.SeekStride = DefaultSeekStride) := by
  have hkeys : ¬ 1 < sk.keys.length := by
    unfold SortKey.IsNil at hnil
    rw [List.isEmpty_iff] at hnil
    rw [hnil]
    decide
  have hNm : ∀ t s, (NewConfig name sk t s ts id).Name = name := fun _ _ => rfl
  have hID : ∀ t s, (NewConfig name sk t s ts id).ID = id := fun _ _ => rfl
  refine ⟨⟨NewConfig name sk (if thresh = 0 then DefaultThreshold else thresh)
    stride ts id, env.openedPayload⟩, ?_, ?_, ?_, ?_⟩
  · simp [Root.CreatePool, hname, hfresh, hkeys, hcreate, hopen, hcache,
      hadd, Root.openPool, createPoolStorage, openPoolStorage, storeAdd,
      hNm, hID, hfresh]
  · simp [NewConfig, hnil]
  · intro h
    simp [NewConfig, h]
  · intro h
    simp [NewConfig, h]

/-- C10 witness: creating pool "a" with a nil sort key, zero threshold
and zero seek stride on the empty Root succeeds with the default
config values. -/
theorem C10_witness :
    ∃ pool, (rootEmpty.CreatePool envOk "a" sortKeyNil 0 0 0 2).2 =
      .ok pool ∧
      pool.Config.SortKey = NewSortKey .desc [["ts"]] ∧
      ((0 : Int) = 0 → pool.Config.Threshold = DefaultThreshold) ∧
      ((0 : Int) = 0 → pool.Config.SeekStride = DefaultSeekStride) :=
  C10_create_pool_nil_sort_key rootEmpty envOk "a" sortKeyNil 0 0 0 2
    rfl (by decide) rfl rfl rfl rfl rfl

/-! ## C7 -/

/-- The engine state after a fresh-path `PutIfNotExists` race loss: the
magic file is still absent for the pre-read, and `PutIfNotExists`
reports `AlreadyExists`. -/
def engPutRaceLost : Engine :=
  { engFresh with putIfNotExistsErr := some .alreadyExists }

/-- C7: on any engine whose magic pre-read does not find a valid magic,
`writeLakeMagic` performs `PutIfNotExists`; when it succeeds no fallback
`Put` happens; when it fails with anything other than `NotSupported`
(including `AlreadyExists`) that error is surfaced unchanged and no
fallback `Put` happens; only on `NotSupported` does it fall back to a
best-effort plain `Put`, whose outcome becomes the result. -/
theorem C7_write_magic_fallback (eng : Engine)
    (hpre : ∃ e₀, readLakeMagic eng.magicFile = .error e₀) :
    Event.putIfNotExistsMagic ∈ (writeLakeMagic eng).1 ∧
    (eng.putIfNotExistsErr = none →
      (writeLakeMagic eng).2 = .ok () ∧
      Event.putMagic ∉ (writeLakeMagic eng).1) ∧
    (∀ e, eng.putIfNotExistsErr = some e → e ≠ .notSupported →
      (writeLakeMagic eng).2 = .error e ∧
      Event.putMagic ∉ (writeLakeMagic eng).1) ∧
    (eng.putIfNotExistsErr = some .notSupported →
      Event.putMagic ∈ (writeLakeMagic eng).1 ∧
      (eng.putErr = none → (writeLakeMagic eng).2 = .ok ()) ∧
      (∀ e, eng.putErr = some e → (writeLakeMagic eng).2 = .error e)) := by
  obtain ⟨e₀, h₀⟩ := hpre
  cases hp : eng.putIfNotExistsErr with
  | none =>
    refine ⟨?_, fun _ => ⟨?_, ?_⟩, ?_, ?_⟩
    · simp [writeLakeMagic, h₀, hp]
    · simp [writeLakeMagic, h₀, hp]
    · simp [writeLakeMagic, h₀, hp]
    · intro e he
      cases he
    · intro he
      cases he
  | some e' =>
    by_cases hns : e' = .notSupported
    · subst hns
      refine ⟨?_, ?_, ?_, fun _ => ⟨?_, ?_, ?_⟩⟩
      · cases hq : eng.putErr <;> simp [writeLakeMagic, h₀, hp, hq]
      · intro he
        cases he
      · intro e he hne
        cases he
        exact absurd rfl hne
      · cases hq : eng.putErr <;> simp [writeLakeMagic, h₀, hp, hq]
      · intro hq
        simp [writeLakeMagic, h₀, hp, hq]
      · intro e hq
        simp [writeLakeMagic, h₀, hp, hq]
    · refine ⟨?_, ?_, ?_, ?_⟩
      · simp [writeLakeMagic, h₀, hp, hns]
      · intro he
        cases he
      · intro e he hne
        cases he
        simp [writeLakeMagic, h₀, hp, hns]
      · intro he
        cases he
        exact absurd rfl hns

/-- C7 witness: the theorem at the concrete engine whose `PutIfNotExists`
reports `AlreadyExists`: the error is surfaced unchanged and no
fallback `Put` happens. -/
theorem C7_witness :
    (writeLakeMagic engPutRaceLost).2 = .error .alreadyExists ∧
    Event.putIfNotExistsMagic ∈ (writeLakeMagic engPutRaceLost).1 ∧
    Event.putMagic ∉ (writeLakeMagic engPutRaceLost).1 := by
  have h := C7_write_magic_fallback engPutRaceLost ⟨.fsNotExist, rfl⟩
  obtain ⟨h₁, _, h₃, _⟩ := h
  obtain ⟨ha, hb⟩ := h₃ .alreadyExists rfl (by decide)
  exact ⟨ha, h₁, hb⟩

/-! ## C3 -/

/-- The trace of `loadConfig` never contains a store-creation or magic
write event: it only reads the magic and opens the two stores. -/
theorem loadConfig_trace_events (eng : Engine) :
    Event.createPoolsStore ∉ (loadConfig eng).1 ∧
    Event.createRulesStore ∉ (loadConfig eng).1 ∧
    Event.putIfNotExistsMagic ∉ (loadConfig eng).1 := by
  unfold loadConfig poolsOpenStore indexOpenStore
  cases readLakeMagic eng.magicFile <;>
    cases eng.openPoolsErr <;> cases eng.openRulesErr <;> simp

/-- A successful `createConfig` run emits exactly: create the pools
store, create the index-rules store, re-read the magic, `PutIfNotExists`
the magic — optionally followed by the fallback `Put`. -/
theorem createConfig_ok_trace (eng : Engine)
    (h : (createConfig eng).2 = .ok ()) :
    (createConfig eng).1 = [.createPoolsStore, .createRulesStore,
      .getMagic, .putIfNotExistsMagic] ∨
    (createConfig eng).1 = [.createPoolsStore, .createRulesStore,
      .getMagic, .putIfNotExistsMagic, .putMagic] := by
  cases hcp : eng.createPoolsErr with
  | some e => simp [createConfig, poolsCreateStore, hcp] at h
  | none =>
    cases hcr : eng.createRulesErr with
    | some e =>
      simp [createConfig, poolsCreateStore, indexCreateStore, hcp, hcr] at h
    | none =>
      cases hmg : readLakeMagic eng.magicFile with
      | ok u =>
        simp [createConfig, poolsCreateStore, indexCreateStore,
          writeLakeMagic, hcp, hcr, hmg] at h
      | error e₀ =>
        cases hp : eng.putIfNotExistsErr with
        | none =>
          left
          simp [createConfig, poolsCreateStore, indexCreateStore,
            writeLakeMagic, hcp, hcr, hmg, hp]
        | some e =>
          by_cases hns : e = .notSupported
          · cases hq : eng.putErr with
            | none =>
              right
              simp [createConfig, poolsCreateStore, indexCreateStore,
                writeLakeMagic, hcp, hcr, hmg, hp, hns, hq]
            | some e' =>
              simp [createConfig, poolsCreateStore, indexCreateStore,
                writeLakeMagic, hcp, hcr, hmg, hp, hns, hq] at h
          · simp [createConfig, poolsCreateStore, indexCreateStore,
              writeLakeMagic, hcp, hcr, hmg, hp, hns] at h

/-- C3, counterexample: on a fresh path where every call succeeds,
`Create` succeeds and its event trace creates the pools store and the
index-rules store strictly before the magic record is written with
`PutIfNotExists` — the opposite of the order the claim states. -/
theorem C3_counterexample :
    (Create engFresh).2 = .ok () ∧
    (Create engFresh).1 = [.getMagic, .createPoolsStore, .createRulesStore,
      .getMagic, .putIfNotExistsMagic] ∧
    List.indexOf Event.createPoolsStore (Create engFresh).1 <
      List.indexOf Event.putIfNotExistsMagic (Create engFresh).1 ∧
    List.indexOf Event.createRulesStore (Create engFresh).1 <
      List.indexOf Event.putIfNotExistsMagic (Create engFresh).1 :=
  ⟨rfl, rfl, by decide, by decide⟩

/-- The engine state left by a successful creation: the magic file holds
the single record `{magic: "ZED LAKE", version: 3}` and both stores
open. -/
def engAfterCreate : Engine :=
  { engFresh with magicFile := some [⟨"ZED LAKE", 3⟩] }

/-- C3 (amended): every successful lake creation first creates the pools
config store and the index-rules config store and then writes the magic
record via `PutIfNotExists`; a second creation at the same path — where
the magic record now holds `{magic, version}` and the stores open —
fails as already existing. -/
theorem C3_create_order (eng eng' : Engine)
    (h : (Create eng).2 = .ok ())
    (hm : eng'.magicFile = some [⟨LakeMagicString, Version⟩])
    (hsp : eng'.openPoolsErr = none)
    (hsr : eng'.openRulesErr = none) :
    (∃ pre post,
      (Create eng).1 = pre ++ ([.createPoolsStore, .createRulesStore,
        .getMagic, .putIfNotExistsMagic] ++ post) ∧
      Event.createPoolsStore ∉ pre ∧
      Event.createRulesStore ∉ pre ∧
      Event.putIfNotExistsMagic ∉ pre) ∧
    (Create eng').2 = .error .lakeExists := by
  constructor
  · have hload := loadConfig_trace_events eng
    unfold Create at h ⊢
    cases hl : loadConfig eng with
    | mk t res =>
      rw [hl] at h hload
      cases res with
      | ok u => simp at h
      | error e =>
        cases hc : createConfig eng with
        | mk t' res' =>
          rw [hc] at h
          have htr := createConfig_ok_trace eng (by rw [hc]; exact h)
          rw [hc] at htr
          dsimp at h htr hload ⊢
          rcases htr with htr | htr <;> subst htr
          · exact ⟨t, [], by simp, hload.1, hload.2.1, hload.2.2⟩
          · exact ⟨t, [.putMagic], by simp, hload.1, hload.2.1, hload.2.2⟩
  · simp [Create, loadConfig, readLakeMagic, hm, hsp, hsr, poolsOpenStore,
      indexOpenStore]

/-- C3 witness: the amended theorem at the fresh engine and at the
engine state left behind by a successful creation. -/
theorem C3_witness :
    (∃ pre post,
      (Create engFresh).1 = pre ++ ([.createPoolsStore, .createRulesStore,
        .getMagic, .putIfNotExistsMagic] ++ post) ∧
      Event.createPoolsStore ∉ pre ∧
      Event.createRulesStore ∉ pre ∧
      Event.putIfNotExistsMagic ∉ pre) ∧
    (Create engAfterCreate).2 = .error .lakeExists :=
  C3_create_order engFresh engAfterCreate rfl rfl rfl rfl

end ZedLake
